import Mathlib

/-!
Verification development for the drawing-review masking core.

The definitions below are a shallow embedding, into Lean, of the
TypeScript source of the repository:

* src/App.tsx — project state, copy-masks-to-all, export helpers,
  batch export, AI-detection reconciliation;
* src/components/CanvasEditor.tsx — the interactive canvas editor:
  pointer-drag state, rectangle normalization, threshold commit, and the
  full-resolution export composite;
* src/types.ts — the data model (MaskRect, ProjectFile, ToolMode).

Machine numbers of the source (JS doubles) are modelled as rationals;
pixel colors are exact RGBA quadruples; the 2d canvas is modelled as a
function from real-valued coordinates to colors, with fillRect filling
the half-open geometric box spanned by its two corners (the HTML canvas
rect path covers the region between the corners for either sign of the
width and height arguments).  Blobs, which the core only passes through,
are an arbitrary type parameter.
-/

/-- Provenance tag of a mask rectangle; source: the field
type: 'manual' | 'ai' of MaskRect in src/types.ts. -/
inductive MaskOrigin where
  | manual : MaskOrigin
  | ai : MaskOrigin
deriving DecidableEq, Repr

/-- A mask rectangle, from the MaskRect interface in src/types.ts:
id, normalized x, y, w, h, provenance type and optional label. -/
structure MaskRect where
  id : String
  x : ℚ
  y : ℚ
  w : ℚ
  h : ℚ
  type : MaskOrigin
  label : Option String := none
deriving DecidableEq, Repr

/-- File kind of a project file; source: FileType in src/types.ts. -/
inductive FileType where
  | image : FileType
  | threeD : FileType
  | table : FileType
deriving DecidableEq, Repr

/-- A loaded project file, from the ProjectFile interface in
src/types.ts.  The blob payload is abstract (type parameter). -/
structure ProjectFile (β : Type) where
  id : String
  name : String
  blob : β
  ftype : FileType
  masks : List MaskRect
deriving DecidableEq, Repr

/-- Tool mode of the editor; source: ToolMode in src/types.ts. -/
inductive ToolMode where
  | pan : ToolMode
  | draw : ToolMode
deriving DecidableEq, Repr

/-- An exact RGBA pixel color. -/
structure Color where
  r : ℕ
  g : ℕ
  b : ℕ
  a : ℕ
deriving DecidableEq, Repr

/-- Opaque black, the export fill style: ctx.fillStyle set to the hex
string 000000 in processImageForExport (src/App.tsx line 92) and in the
CanvasEditor export effect (src/components/CanvasEditor.tsx line 216). -/
def black : Color := ⟨0, 0, 0, 255⟩

/-- Geometric coverage of a canvas fillRect call: the filled region is
the half-open box spanned by the corners (rx, ry) and
(rx + rw, ry + rh), for either sign of rw and rh. -/
def fillRectCovers (rx ry rw rh px py : ℚ) : Prop :=
  min rx (rx + rw) ≤ px ∧ px < max rx (rx + rw) ∧
  min ry (ry + rh) ≤ py ∧ py < max ry (ry + rh)

instance (rx ry rw rh px py : ℚ) : Decidable (fillRectCovers rx ry rw rh px py) := by
  unfold fillRectCovers; infer_instance

/-- Effect of one ctx.fillRect call on a canvas modelled as a function
from coordinates to colors. -/
def fillRectApply (c : ℚ → ℚ → Color) (rx ry rw rh : ℚ) (fill : Color) : ℚ → ℚ → Color :=
  fun px py => if fillRectCovers rx ry rw rh px py then fill else c px py

/-- The mask-drawing loop shared by the two export code paths
(src/App.tsx lines 92-100 and src/components/CanvasEditor.tsx lines
216-224): for each mask in collection order, fill its pixel-space
rectangle with opaque black on top of the canvas. -/
def drawMasks (img : ℚ → ℚ → Color) (W H : ℚ) (masks : List MaskRect) : ℚ → ℚ → Color :=
  masks.foldl
    (fun c m => fillRectApply c (m.x * W) (m.y * H) (m.w * W) (m.h * H) black)
    img

/-- An offscreen export canvas: its pixel dimensions and its contents. -/
structure ExportedImage where
  width : ℕ
  height : ℕ
  pix : ℚ → ℚ → Color

/-- The full-resolution export composite built by processImageForExport
(src/App.tsx lines 80-105) and identically by the CanvasEditor export
effect (src/components/CanvasEditor.tsx lines 208-229): a canvas of the
image's intrinsic dimensions, the source image drawn at the origin, then
every mask filled in opaque black. -/
def processImageComposite (img : ℚ → ℚ → Color) (W H : ℕ) (masks : List MaskRect) :
    ExportedImage :=
  ⟨W, H, drawMasks img (W : ℚ) (H : ℚ) masks⟩

/-- The pixel-space box of a mask rectangle, as the spec describes it:
offsets and extents scaled by the image dimensions. -/
def maskPixelBox (m : MaskRect) (W H : ℕ) (px py : ℚ) : Prop :=
  m.x * W ≤ px ∧ px < (m.x + m.w) * W ∧
  m.y * H ≤ py ∧ py < (m.y + m.h) * H

instance (m : MaskRect) (W H : ℕ) (px py : ℚ) : Decidable (maskPixelBox m W H px py) := by
  unfold maskPixelBox; infer_instance

/-- The in-progress rectangle held by the editor during a draw drag
(the currentRect state of CanvasEditor, a partial MaskRect whose four
coordinate fields are set). -/
structure CurrentRect where
  x : ℚ
  y : ℚ
  w : ℚ
  h : ℚ
deriving DecidableEq, Repr

/-- Mutable state of the CanvasEditor relevant to pointer interaction:
the dragRef record (isDown, startX, startY, scrollLeft, scrollTop), the
container's live scroll offsets, the in-progress rectangle, and the
committed mask collection of the active image. -/
structure EditorState where
  isDown : Bool
  startX : ℚ
  startY : ℚ
  scrollLeft : ℚ
  scrollTop : ℚ
  containerScrollLeft : ℚ
  containerScrollTop : ℚ
  currentRect : Option CurrentRect
  masks : List MaskRect
deriving DecidableEq, Repr

/-- Pointer-to-normalized conversion of getNormalizedPos
(src/components/CanvasEditor.tsx lines 124-133): offset within the
display surface divided by the display extent. -/
def getNormalizedPos (clientX clientY rectLeft rectTop rectWidth rectHeight : ℚ) : ℚ × ℚ :=
  ((clientX - rectLeft) / rectWidth, (clientY - rectTop) / rectHeight)

/-- The handleMouseDown handler (src/components/CanvasEditor.tsx lines
136-151).  If no image is loaded it returns unchanged; otherwise it
unconditionally sets isDown and records the pointer position, then in
pan mode records the container scroll offsets and in draw mode seeds the
in-progress rectangle with a zero extent at the normalized pointer
position.  Note that it performs no check of the previous isDown flag. -/
def handleMouseDown (s : EditorState) (mode : ToolMode)
    (clientX clientY rectLeft rectTop rectWidth rectHeight : ℚ)
    (imageLoaded : Bool) : EditorState :=
  if !imageLoaded then s
  else
    let s1 := { s with isDown := true, startX := clientX, startY := clientY }
    match mode with
    | ToolMode.pan =>
        { s1 with scrollLeft := s.containerScrollLeft,
                  scrollTop := s.containerScrollTop }
    | ToolMode.draw =>
        let p := getNormalizedPos clientX clientY rectLeft rectTop rectWidth rectHeight
        { s1 with currentRect := some ⟨p.1, p.2, 0, 0⟩ }

/-- The handleMouseMove handler (src/components/CanvasEditor.tsx lines
153-173): ignored unless a drag is down; in pan mode scrolls the
container opposite to the pointer delta; in draw mode recomputes the
in-progress rectangle's extents relative to its anchor. -/
def handleMouseMove (s : EditorState) (mode : ToolMode)
    (clientX clientY rectLeft rectTop rectWidth rectHeight : ℚ) : EditorState :=
  if !s.isDown then s
  else
    match mode with
    | ToolMode.pan =>
        { s with containerScrollLeft := s.scrollLeft - (clientX - s.startX),
                 containerScrollTop := s.scrollTop - (clientY - s.startY) }
    | ToolMode.draw =>
        match s.currentRect with
        | none => s
        | some r =>
            let p := getNormalizedPos clientX clientY rectLeft rectTop rectWidth rectHeight
            { s with currentRect := some ⟨r.x, r.y, p.1 - r.x, p.2 - r.y⟩ }

/-- The drag-commit computation inlined in handleMouseUp
(src/components/CanvasEditor.tsx lines 179-194): normalize negative
extents by shifting the origin, then commit a manual mask with the
current timestamp as identifier only when both extents exceed the
5/1000 minimum-size threshold. -/
def commitDrag (r : CurrentRect) (ts : ℕ) : Option MaskRect :=
  let x := if r.w < 0 then r.x + r.w else r.x
  let w := if r.w < 0 then -r.w else r.w
  let y := if r.h < 0 then r.y + r.h else r.y
  let h := if r.h < 0 then -r.h else r.h
  if w > 5 / 1000 ∧ h > 5 / 1000 then
    some ⟨Nat.repr ts, x, y, w, h, MaskOrigin.manual, none⟩
  else
    none

/-- The handleMouseUp handler (src/components/CanvasEditor.tsx lines
175-197): clears isDown; in draw mode with an in-progress rectangle it
appends the committed mask, if any, and clears the in-progress
rectangle.  The timestamp parameter models the Date.now() call that
produces the fresh identifier. -/
def handleMouseUp (s : EditorState) (mode : ToolMode) (ts : ℕ) : EditorState :=
  match mode, s.currentRect with
  | ToolMode.draw, some r =>
      { s with isDown := false,
               masks := s.masks ++ (commitDrag r ts).toList,
               currentRect := none }
  | _, _ => { s with isDown := false }

/-- The handleMouseLeave handler (src/components/CanvasEditor.tsx lines
199-205): if a drag is down, stop it and discard any in-progress
rectangle. -/
def handleMouseLeave (s : EditorState) : EditorState :=
  if s.isDown then { s with isDown := false, currentRect := none } else s

/-- An external detection result, from AiDetectionResult in
src/types.ts: a four-number box in ymin, xmin, ymax, xmax order plus a
label. -/
structure AiDetectionResult where
  box0 : ℚ
  box1 : ℚ
  box2 : ℚ
  box3 : ℚ
  label : String
deriving DecidableEq, Repr

/-- Reconciliation of one detection result into a mask rectangle, from
the newMasks construction in handleAutoDetect (src/App.tsx lines
189-197): each of the four derived components is divided by 1000
exactly when that component's own value exceeds 1; the identifier is
assembled from the timestamp and a random draw; origin is ai.  The
timestamp and random string model the Date.now() and Math.random()
calls. -/
def detectionToMask (r : AiDetectionResult) (ts : ℕ) (rand : String) : MaskRect :=
  { id := "ai-" ++ Nat.repr ts ++ "-" ++ rand
    x := if r.box1 > 1 then r.box1 / 1000 else r.box1
    y := if r.box0 > 1 then r.box0 / 1000 else r.box0
    w := if r.box3 - r.box1 > 1 then (r.box3 - r.box1) / 1000 else r.box3 - r.box1
    h := if r.box2 - r.box0 > 1 then (r.box2 - r.box0) / 1000 else r.box2 - r.box0
    type := MaskOrigin.ai
    label := some r.label }

/-- Mask collection of the file at a given index, empty when the index
is out of range (files at other indices are never touched by the
operations below). -/
def masksAt {β : Type} (files : List (ProjectFile β)) (idx : ℕ) : List MaskRect :=
  ((files.get? idx).map ProjectFile.masks).getD []

/-- The handleMaskChange updater (src/App.tsx lines 38-54): replace the
mask collection of the file at the current index by applying the given
whole-collection update, but only when that file is an image; any other
file type leaves the project unchanged. -/
def handleMaskChange {β : Type} (files : List (ProjectFile β)) (idx : ℕ)
    (g : List MaskRect → List MaskRect) : List (ProjectFile β) :=
  match files.get? idx with
  | none => files
  | some f =>
      if f.ftype = FileType.image then
        files.set idx { f with masks := g f.masks }
      else
        files

/-- The handleApplyMasksToAll action (src/App.tsx lines 56-73): if the
current file's collection is empty, do nothing; otherwise overwrite the
collection of every image file with a copy of the source collection
(the spread of sourceMasks — a fresh array holding the same rectangle
values).  The user-confirmation dialog is modelled as confirmed. -/
def handleApplyMasksToAll {β : Type} (files : List (ProjectFile β)) (idx : ℕ) :
    List (ProjectFile β) :=
  let sourceMasks := masksAt files idx
  if sourceMasks = [] then files
  else
    files.map fun f =>
      if f.ftype = FileType.image then { f with masks := sourceMasks } else f

/-- The extension-stripping regex applied in handleBatchExport
(src/App.tsx line 139): file.name.replace of one match of the anchored
pattern dot, one-or-more characters other than dot and slash, end of
string.  Such a match exists exactly when the name has a dot with at
least one later character and no dot or slash after it; the match spans
from that last dot to the end and is removed. -/
def stripExtensionMatch (s : String) : String :=
  let r := s.data.reverse
  let suffix := r.takeWhile fun c => c ≠ '.' ∧ c ≠ '/'
  match r.drop suffix.length with
  | [] => s
  | c :: rest =>
      if c = '.' ∧ suffix ≠ [] then String.mk rest.reverse else s

/-- The archive entry name chosen in handleBatchExport (src/App.tsx
lines 136-140): image files have their extension normalized to png by
stripping the regex match and appending the png suffix; other files
keep their name. -/
def exportFileName {β : Type} (f : ProjectFile β) : String :=
  if f.ftype = FileType.image then stripExtensionMatch f.name ++ ".png" else f.name

/-- The processImageForExport helper at the blob level (src/App.tsx
lines 76-110): a non-image file resolves immediately with its original
blob; an image file is composited offscreen, which may fail (image load
error, canvas context error or blob generation failure).  The render
oracle models the browser's composition of that file, with none for a
rejected promise. -/
def processImageForExport {β : Type} (render : ProjectFile β → Option β)
    (f : ProjectFile β) : Option β :=
  if f.ftype = FileType.image then render f else some f.blob

/-- The archive entries accumulated by the per-file loop of
handleBatchExport (src/App.tsx lines 132-148): each file whose
processing succeeds contributes one named entry; a file whose
processing throws is caught, logged and skipped. -/
def batchEntries {β : Type} (render : ProjectFile β → Option β)
    (files : List (ProjectFile β)) : List (String × β) :=
  files.filterMap fun f =>
    (processImageForExport render f).map fun b => (exportFileName f, b)

/-- Outcome of a batch-export request: nothing (no files), the
single-image direct export path (the export trigger is incremented and
the CanvasEditor effect delivers one encoded png), or an assembled
archive of named entries with an optional requirements manifest. -/
inductive ExportOutcome (β : Type) where
  | none : ExportOutcome β
  | singleImage : ExportOutcome β
  | archive (entries : List (String × β)) (manifest : Option String) : ExportOutcome β
deriving DecidableEq, Repr

/-- The handleBatchExport action (src/App.tsx lines 112-159): no files
is a no-op; exactly one file that is an image takes the single-image
export path; otherwise a zip archive is assembled containing a
requirements manifest when the project description is non-empty plus
one entry per successfully processed file. -/
def handleBatchExport {β : Type} (files : List (ProjectFile β)) (projectDesc : String)
    (render : ProjectFile β → Option β) : ExportOutcome β :=
  match files with
  | [] => ExportOutcome.none
  | f :: rest =>
      if rest.isEmpty ∧ f.ftype = FileType.image then ExportOutcome.singleImage
      else
        ExportOutcome.archive (batchEntries render (f :: rest))
          (if projectDesc = "" then Option.none else some projectDesc)

/-- One mask-creating operation on a single image subject's collection:
a completed manual draw drag (handleMouseUp), a detection append
(handleAutoDetect), or a copy-to-all overwrite received from a source
collection (handleApplyMasksToAll).  Timestamps and random strings
model the Date.now() and Math.random() calls that produce identifiers;
each detection result carries its own pair because the map callbacks
draw them independently. -/
inductive MaskOp where
  | drag (x y w h : ℚ) (ts : ℕ) : MaskOp
  | detect (items : List (AiDetectionResult × ℕ × String)) : MaskOp
  | copyAll (src : List MaskRect) : MaskOp
deriving DecidableEq, Repr

/-- Effect of one mask-creating operation on a collection, assembled
from the corresponding handlers: a drag appends its committed mask (if
any), a detection appends the reconciled masks, a copy-to-all replaces
the collection with the copied source values. -/
def applyMaskOp (cur : List MaskRect) : MaskOp → List MaskRect
  | MaskOp.drag x y w h ts => cur ++ (commitDrag ⟨x, y, w, h⟩ ts).toList
  | MaskOp.detect items =>
      cur ++ items.map fun it => detectionToMask it.1 it.2.1 it.2.2
  | MaskOp.copyAll src => src

/-- A sequence of mask-creating operations applied in order. -/
def applyMaskOps (cur : List MaskRect) (ops : List MaskOp) : List MaskRect :=
  ops.foldl applyMaskOp cur

/-- Identifiers generated by one operation (for a copy-to-all, the
identifiers of the copied collection). -/
def opGenIds (op : MaskOp) : List String :=
  match op with
  | MaskOp.drag _ _ _ _ ts => [Nat.repr ts]
  | MaskOp.detect items =>
      items.map fun it => "ai-" ++ Nat.repr it.2.1 ++ "-" ++ it.2.2
  | MaskOp.copyAll src => src.map MaskRect.id

/-- Freshness of one operation against the current collection: the
identifiers it generates are pairwise distinct and, except for a
wholesale copy, absent from the current collection. -/
def opFresh (cur : List MaskRect) (op : MaskOp) : Bool :=
  decide (opGenIds op).Nodup &&
    match op with
    | MaskOp.copyAll _ => true
    | _ => (opGenIds op).all fun i => decide (i ∉ cur.map MaskRect.id)

/-- Freshness of a whole operation sequence, step by step. -/
def freshTrace (cur : List MaskRect) : List MaskOp → Bool
  | [] => true
  | op :: rest => opFresh cur op && freshTrace (applyMaskOp cur op) rest

theorem drawMasks_pix (masks : List MaskRect) (img : ℚ → ℚ → Color) (W H px py : ℚ) :
    drawMasks img W H masks px py =
      if ∃ m ∈ masks, fillRectCovers (m.x * W) (m.y * H) (m.w * W) (m.h * H) px py
      then black else img px py := by
  induction masks generalizing img with
  | nil => simp [drawMasks]
  | cons m ms ih =>
      have h1 : drawMasks img W H (m :: ms) px py =
          drawMasks (fillRectApply img (m.x * W) (m.y * H) (m.w * W) (m.h * H) black)
            W H ms px py := rfl
      rw [h1, ih]
      by_cases hm : fillRectCovers (m.x * W) (m.y * H) (m.w * W) (m.h * H) px py <;>
        by_cases hms : ∃ m' ∈ ms,
            fillRectCovers (m'.x * W) (m'.y * H) (m'.w * W) (m'.h * H) px py <;>
        simp [fillRectApply, hm, hms]

theorem fillRectCovers_iff_maskPixelBox (m : MaskRect) (W H : ℕ) (px py : ℚ)
    (hw : 0 ≤ m.w) (hh : 0 ≤ m.h) :
    fillRectCovers (m.x * W) (m.y * H) (m.w * W) (m.h * H) px py ↔
      maskPixelBox m W H px py := by
  have hW : (0 : ℚ) ≤ (W : ℚ) := by positivity
  have hH : (0 : ℚ) ≤ (H : ℚ) := by positivity
  have h1 : m.x * W ≤ m.x * W + m.w * W := le_add_of_nonneg_right (mul_nonneg hw hW)
  have h2 : m.y * H ≤ m.y * H + m.h * H := le_add_of_nonneg_right (mul_nonneg hh hH)
  unfold fillRectCovers maskPixelBox
  rw [min_eq_left h1, max_eq_right h1, min_eq_left h2, max_eq_right h2, add_mul, add_mul]

/-- C1: for every image and every mask collection, the full-resolution
export composite has the image's intrinsic pixel dimensions, equals the
source image at every pixel outside all mask rectangles, and is opaque
black at every pixel inside any mask rectangle's pixel-space box;
consequently exporting with zero masks yields the unmodified source
image, and exporting with one full-image mask (x = 0, y = 0, w = 1,
h = 1) leaves every pixel of the image area opaque black. -/
theorem C1_export_composite (img : ℚ → ℚ → Color) (W H : ℕ) (masks : List MaskRect)
    (hmasks : ∀ m ∈ masks, 0 ≤ m.w ∧ 0 ≤ m.h) :
    (processImageComposite img W H masks).width = W ∧
    (processImageComposite img W H masks).height = H ∧
    (∀ px py, (∀ m ∈ masks, ¬ maskPixelBox m W H px py) →
      (processImageComposite img W H masks).pix px py = img px py) ∧
    (∀ px py, (∃ m ∈ masks, maskPixelBox m W H px py) →
      (processImageComposite img W H masks).pix px py = black) ∧
    (∀ px py, (processImageComposite img W H []).pix px py = img px py) ∧
    (∀ s px py, 0 ≤ px → px < (W : ℚ) → 0 ≤ py → py < (H : ℚ) →
      (processImageComposite img W H
        [⟨s, 0, 0, 1, 1, MaskOrigin.manual, none⟩]).pix px py = black) := by
  refine ⟨rfl, rfl, ?_, ?_, ?_, ?_⟩
  · intro px py hout
    show drawMasks img (W : ℚ) (H : ℚ) masks px py = img px py
    rw [drawMasks_pix]
    apply if_neg
    rintro ⟨m, hmem, hcov⟩
    exact hout m hmem
      ((fillRectCovers_iff_maskPixelBox m W H px py (hmasks m hmem).1
        (hmasks m hmem).2).mp hcov)
  · rintro px py ⟨m, hmem, hbox⟩
    show drawMasks img (W : ℚ) (H : ℚ) masks px py = black
    rw [drawMasks_pix]
    exact if_pos ⟨m, hmem,
      (fillRectCovers_iff_maskPixelBox m W H px py (hmasks m hmem).1
        (hmasks m hmem).2).mpr hbox⟩
  · intro px py
    simp [processImageComposite, drawMasks]
  · intro s px py hx0 hxW hy0 hyH
    show drawMasks img (W : ℚ) (H : ℚ) _ px py = black
    rw [drawMasks_pix]
    apply if_pos
    refine ⟨_, List.mem_singleton_self _, ?_⟩
    have hW : (0 : ℚ) ≤ (W : ℚ) := by positivity
    have hH : (0 : ℚ) ≤ (H : ℚ) := by positivity
    simp only [fillRectCovers]
    constructor
    · simpa [min_eq_left hW] using hx0
    refine ⟨?_, ?_, ?_⟩
    · simpa [max_eq_right hW] using hxW
    · simpa [min_eq_left hH] using hy0
    · simpa [max_eq_right hH] using hyH

/-- Witness for C1 at a concrete image, dimensions and mask list. -/
theorem C1_export_composite_witness :
    (processImageComposite (fun _ _ => ⟨7, 7, 7, 255⟩) 10 10
      [⟨"m", 1/4, 1/4, 1/2, 1/2, MaskOrigin.manual, none⟩]).pix 5 5 = black ∧
    (processImageComposite (fun _ _ => ⟨7, 7, 7, 255⟩) 10 10
      [⟨"m", 1/4, 1/4, 1/2, 1/2, MaskOrigin.manual, none⟩]).pix 0 0 = ⟨7, 7, 7, 255⟩ := by
  have h := C1_export_composite (fun _ _ => ⟨7, 7, 7, 255⟩) 10 10
    [⟨"m", 1/4, 1/4, 1/2, 1/2, MaskOrigin.manual, none⟩]
    (by intro m hm; simp at hm; subst hm; norm_num)
  refine ⟨h.2.2.2.1 5 5 ⟨_, List.mem_singleton_self _, by norm_num [maskPixelBox]⟩, ?_⟩
  refine h.2.2.1 0 0 ?_
  intro m hm
  simp at hm
  subst hm
  norm_num [maskPixelBox]

theorem commitDrag_eq (r : CurrentRect) (ts : ℕ) :
    commitDrag r ts =
      if 5 / 1000 < |r.w| ∧ 5 / 1000 < |r.h| then
        some ⟨Nat.repr ts, min r.x (r.x + r.w), min r.y (r.y + r.h), |r.w|, |r.h|,
          MaskOrigin.manual, none⟩
      else none := by
  rcases lt_or_le r.w 0 with hw | hw <;> rcases lt_or_le r.h 0 with hh | hh
  · rw [abs_of_neg hw, abs_of_neg hh,
      min_eq_right (by linarith : r.x + r.w ≤ r.x),
      min_eq_right (by linarith : r.y + r.h ≤ r.y)]
    simp only [commitDrag, if_pos hw, if_pos hh]
  · rw [abs_of_neg hw, abs_of_nonneg hh,
      min_eq_right (by linarith : r.x + r.w ≤ r.x),
      min_eq_left (by linarith : r.y ≤ r.y + r.h)]
    simp only [commitDrag, if_pos hw, if_neg (not_lt.mpr hh)]
  · rw [abs_of_nonneg hw, abs_of_neg hh,
      min_eq_left (by linarith : r.x ≤ r.x + r.w),
      min_eq_right (by linarith : r.y + r.h ≤ r.y)]
    simp only [commitDrag, if_neg (not_lt.mpr hw), if_pos hh]
  · rw [abs_of_nonneg hw, abs_of_nonneg hh,
      min_eq_left (by linarith : r.x ≤ r.x + r.w),
      min_eq_left (by linarith : r.y ≤ r.y + r.h)]
    simp only [commitDrag, if_neg (not_lt.mpr hw), if_neg (not_lt.mpr hh)]

theorem handleMouseUp_masks (s : EditorState) (r : CurrentRect) (ts : ℕ)
    (hr : s.currentRect = some r) :
    (handleMouseUp s ToolMode.draw ts).masks = s.masks ++ (commitDrag r ts).toList := by
  obtain ⟨dn, sx, sy, sl, st, csl, cst, cr, ms⟩ := s
  cases hr
  rfl

theorem commitDrag_of_append (s : EditorState) (r : CurrentRect) (ts : ℕ)
    (hr : s.currentRect = some r) (m : MaskRect)
    (hm : (handleMouseUp s ToolMode.draw ts).masks = s.masks ++ [m]) :
    commitDrag r ts = some m := by
  rw [handleMouseUp_masks s r ts hr] at hm
  have hlist := List.append_cancel_left hm
  cases hcc : commitDrag r ts <;> rw [hcc] at hlist <;> simp_all

/-- C2: for every completed draw drag, the committed rectangle (if any)
has non-negative w and h and its origin is the top-left corner of the
dragged region regardless of drag direction: when the gesture produced
w < 0 the stored x equals the anchor x plus w and w is negated, and
symmetrically for h and y. -/
theorem C2_commit_normalized (s : EditorState) (r : CurrentRect) (ts : ℕ)
    (hr : s.currentRect = some r) (m : MaskRect)
    (hm : (handleMouseUp s ToolMode.draw ts).masks = s.masks ++ [m]) :
    0 ≤ m.w ∧ 0 ≤ m.h ∧ m.x = min r.x (r.x + r.w) ∧ m.y = min r.y (r.y + r.h) ∧
    (r.w < 0 → m.x = r.x + r.w ∧ m.w = -r.w) ∧
    (r.h < 0 → m.y = r.y + r.h ∧ m.h = -r.h) := by
  have hc := commitDrag_of_append s r ts hr m hm
  rw [commitDrag_eq] at hc
  by_cases hT : 5 / 1000 < |r.w| ∧ 5 / 1000 < |r.h|
  · rw [if_pos hT] at hc
    have hmm := Option.some.inj hc
    subst hmm
    refine ⟨abs_nonneg _, abs_nonneg _, rfl, rfl, fun hw => ⟨?_, ?_⟩, fun hh => ⟨?_, ?_⟩⟩
    · exact min_eq_right (by linarith)
    · exact abs_of_neg hw
    · exact min_eq_right (by linarith)
    · exact abs_of_neg hh
  · rw [if_neg hT] at hc
    exact absurd hc (by simp)

/-- Witness for C2 at a concrete up-left drag. -/
theorem C2_commit_normalized_witness :
    0 ≤ (⟨Nat.repr 7, 1/4, 1/4, 1/4, 1/4, MaskOrigin.manual, none⟩ : MaskRect).w ∧
    (⟨Nat.repr 7, 1/4, 1/4, 1/4, 1/4, MaskOrigin.manual, none⟩ : MaskRect).x =
      1/2 + -(1/4) := by
  have h := C2_commit_normalized
    ⟨false, 0, 0, 0, 0, 0, 0, some ⟨1/2, 1/2, -(1/4), -(1/4)⟩, []⟩
    ⟨1/2, 1/2, -(1/4), -(1/4)⟩ 7 rfl
    ⟨Nat.repr 7, 1/4, 1/4, 1/4, 1/4, MaskOrigin.manual, none⟩
    (by
      rw [handleMouseUp_masks _ ⟨1/2, 1/2, -(1/4), -(1/4)⟩ 7 rfl, commitDrag_eq]
      rw [if_pos (by constructor <;> (simp [abs]; norm_num))]
      norm_num [min_def])
  exact ⟨h.1, (h.2.2.2.2.1 (by norm_num)).1⟩

/-- C3: a completed draw drag commits a rectangle (always with origin
manual) only if both normalized extents exceed the 5/1000 threshold; a
drag whose final absolute w or h is below 5/1000 commits nothing and
leaves the mask collection unchanged. -/
theorem C3_commit_threshold (s : EditorState) (r : CurrentRect) (ts : ℕ)
    (hr : s.currentRect = some r) :
    (∀ m : MaskRect, (handleMouseUp s ToolMode.draw ts).masks = s.masks ++ [m] →
      m.type = MaskOrigin.manual ∧ 5 / 1000 < |r.w| ∧ 5 / 1000 < |r.h|) ∧
    ((|r.w| < 5 / 1000 ∨ |r.h| < 5 / 1000) →
      (handleMouseUp s ToolMode.draw ts).masks = s.masks) := by
  constructor
  · intro m hm
    have hc := commitDrag_of_append s r ts hr m hm
    rw [commitDrag_eq] at hc
    by_cases hT : 5 / 1000 < |r.w| ∧ 5 / 1000 < |r.h|
    · rw [if_pos hT] at hc
      have hmm := Option.some.inj hc
      subst hmm
      exact ⟨rfl, hT.1, hT.2⟩
    · rw [if_neg hT] at hc
      exact absurd hc (by simp)
  · intro hsmall
    rw [handleMouseUp_masks s r ts hr]
    have hnone : commitDrag r ts = none := by
      rw [commitDrag_eq, if_neg]
      rintro ⟨h1, h2⟩
      rcases hsmall with h | h <;> linarith
    simp [hnone]

/-- Witness for C3 at a drag below the minimum-size threshold. -/
theorem C3_commit_threshold_witness :
    (handleMouseUp ⟨false, 0, 0, 0, 0, 0, 0, some ⟨0, 0, 1/1000, 1⟩, []⟩
      ToolMode.draw 3).masks = [] := by
  have h := (C3_commit_threshold
    ⟨false, 0, 0, 0, 0, 0, 0, some ⟨0, 0, 1/1000, 1⟩, []⟩
    ⟨0, 0, 1/1000, 1⟩ 3 rfl).2 (Or.inl (by simp [abs]; norm_num))
  simpa using h

/-- C4: the reconciler normalizes each detected box per component: each
of x (from xmin), y (from ymin), w (from xmax minus xmin) and h (from
ymax minus ymin) is divided by 1000 exactly when that component's own
value exceeds 1; the 0-1000 scale box (100, 200, 400, 600) in ymin,
xmin, ymax, xmax order normalizes to x = 0.2, y = 0.1, w = 0.4,
h = 0.3, and the box (0.1, 0.2, 0.4, 0.6) normalizes to the same
values with no division. -/
theorem C4_detection_normalization :
    (∀ (r : AiDetectionResult) (ts : ℕ) (rand : String),
      ((1 < r.box1 → (detectionToMask r ts rand).x = r.box1 / 1000) ∧
       (¬ 1 < r.box1 → (detectionToMask r ts rand).x = r.box1)) ∧
      ((1 < r.box0 → (detectionToMask r ts rand).y = r.box0 / 1000) ∧
       (¬ 1 < r.box0 → (detectionToMask r ts rand).y = r.box0)) ∧
      ((1 < r.box3 - r.box1 → (detectionToMask r ts rand).w = (r.box3 - r.box1) / 1000) ∧
       (¬ 1 < r.box3 - r.box1 → (detectionToMask r ts rand).w = r.box3 - r.box1)) ∧
      ((1 < r.box2 - r.box0 → (detectionToMask r ts rand).h = (r.box2 - r.box0) / 1000) ∧
       (¬ 1 < r.box2 - r.box0 → (detectionToMask r ts rand).h = r.box2 - r.box0))) ∧
    ((detectionToMask ⟨100, 200, 400, 600, "t"⟩ 0 "r").x = 2/10 ∧
     (detectionToMask ⟨100, 200, 400, 600, "t"⟩ 0 "r").y = 1/10 ∧
     (detectionToMask ⟨100, 200, 400, 600, "t"⟩ 0 "r").w = 4/10 ∧
     (detectionToMask ⟨100, 200, 400, 600, "t"⟩ 0 "r").h = 3/10) ∧
    ((detectionToMask ⟨1/10, 2/10, 4/10, 6/10, "t"⟩ 0 "r").x = 2/10 ∧
     (detectionToMask ⟨1/10, 2/10, 4/10, 6/10, "t"⟩ 0 "r").y = 1/10 ∧
     (detectionToMask ⟨1/10, 2/10, 4/10, 6/10, "t"⟩ 0 "r").w = 4/10 ∧
     (detectionToMask ⟨1/10, 2/10, 4/10, 6/10, "t"⟩ 0 "r").h = 3/10) := by
  refine ⟨fun r ts rand => ?_, ?_, ?_⟩
  · refine ⟨?_, ?_, ?_, ?_⟩ <;> constructor <;> intro h <;>
      simp [detectionToMask, gt_iff_lt, h]
  · norm_num [detectionToMask]
  · norm_num [detectionToMask]

/-- Witness for C4 at a concrete 0-1000-scale component. -/
theorem C4_detection_normalization_witness :
    (1 : ℚ) < 200 ∧ (detectionToMask ⟨100, 200, 400, 600, "t"⟩ 0 "r").x = 200 / 1000 := by
  refine ⟨by norm_num, ?_⟩
  exact ((C4_detection_normalization.1 ⟨100, 200, 400, 600, "t"⟩ 0 "r").1).1 (by norm_num)

theorem handleBatchExport_of_two_le {β : Type} (files : List (ProjectFile β))
    (desc : String) (render : ProjectFile β → Option β) (h : 2 ≤ files.length) :
    handleBatchExport files desc render =
      ExportOutcome.archive (batchEntries render files)
        (if desc = "" then Option.none else some desc) := by
  match files with
  | [] => simp at h
  | [f] => simp at h
  | f :: g :: rest => simp [handleBatchExport]

theorem batchEntries_append {β : Type} (render : ProjectFile β → Option β)
    (l1 l2 : List (ProjectFile β)) :
    batchEntries render (l1 ++ l2) = batchEntries render l1 ++ batchEntries render l2 := by
  simp [batchEntries]

theorem batchEntries_mem {β : Type} (render : ProjectFile β → Option β)
    (l : List (ProjectFile β)) (f : ProjectFile β) (b : β) (hf : f ∈ l)
    (hb : processImageForExport render f = some b) :
    (exportFileName f, b) ∈ batchEntries render l := by
  refine List.mem_filterMap.mpr ⟨f, hf, ?_⟩
  rw [hb]
  rfl

/-- C5: in a multi-subject batch export in which the composition of one
subject fails, that subject is skipped and the archive still contains
the outputs of every subject whose composition succeeded; the failure
aborts nothing. -/
theorem C5_batch_partial_failure {β : Type} (l1 l2 : List (ProjectFile β))
    (bad : ProjectFile β) (desc : String) (render : ProjectFile β → Option β)
    (hbad : processImageForExport render bad = none)
    (hlen : 2 ≤ (l1 ++ bad :: l2).length) :
    handleBatchExport (l1 ++ bad :: l2) desc render =
      ExportOutcome.archive (batchEntries render l1 ++ batchEntries render l2)
        (if desc = "" then Option.none else some desc) ∧
    (∀ f ∈ l1 ++ l2, ∀ b, processImageForExport render f = some b →
      (exportFileName f, b) ∈ batchEntries render l1 ++ batchEntries render l2) := by
  constructor
  · rw [handleBatchExport_of_two_le _ _ _ hlen, batchEntries_append]
    have hcons : batchEntries render (bad :: l2) = batchEntries render l2 := by
      simp [batchEntries, hbad]
    rw [hcons]
  · intro f hf b hb
    rcases List.mem_append.mp hf with h1 | h2
    · exact List.mem_append.mpr (Or.inl (batchEntries_mem render l1 f b h1 hb))
    · exact List.mem_append.mpr (Or.inr (batchEntries_mem render l2 f b h2 hb))

/-- Witness for C5: a failing middle subject is skipped while the
surrounding subjects' outputs are archived. -/
theorem C5_batch_partial_failure_witness :
    handleBatchExport
      [⟨"a", "a.glb", 1, FileType.threeD, []⟩,
       ⟨"b", "bad.png", 2, FileType.image, []⟩,
       ⟨"c", "c.xlsx", 3, FileType.table, []⟩] "" (fun _ => (Option.none : Option ℕ)) =
      ExportOutcome.archive [("a.glb", 1), ("c.xlsx", 3)] Option.none := by
  have h := (C5_batch_partial_failure
    [⟨"a", "a.glb", 1, FileType.threeD, []⟩] [⟨"c", "c.xlsx", 3, FileType.table, []⟩]
    ⟨"b", "bad.png", 2, FileType.image, []⟩ "" (fun _ => (Option.none : Option ℕ))
    (by simp [processImageForExport]) (by simp)).1
  simpa [batchEntries, processImageForExport, exportFileName] using h

theorem handleMaskChange_other {β : Type} (files : List (ProjectFile β)) (j k : ℕ)
    (g : List MaskRect → List MaskRect) (hjk : j ≠ k) :
    masksAt (handleMaskChange files j g) k = masksAt files k := by
  unfold handleMaskChange
  cases hf : files.get? j with
  | none => rfl
  | some f =>
      by_cases himg : f.ftype = FileType.image
      · simp only [himg, if_pos]
        unfold masksAt
        rw [List.get?_eq_getElem?, List.get?_eq_getElem?, List.getElem?_set_ne hjk]
      · simp [himg]

/-- C6: after copy-to-all from a source subject with a non-empty mask
collection, every image subject's collection equals the source's in
content, and the collections are independent: a subsequent
whole-collection update (append, replace or clear) applied to any one
subject leaves the collection of every other subject unchanged. -/
theorem C6_copy_to_all {β : Type} (files : List (ProjectFile β)) (idx : ℕ)
    (_hsrc : ∀ f, files.get? idx = some f → f.ftype = FileType.image)
    (hne : masksAt files idx ≠ []) :
    (∀ (j : ℕ) (f' : ProjectFile β),
      (handleApplyMasksToAll files idx).get? j = some f' →
      f'.ftype = FileType.image → f'.masks = masksAt files idx) ∧
    (∀ j k (g : List MaskRect → List MaskRect), j ≠ k →
      masksAt (handleMaskChange (handleApplyMasksToAll files idx) j g) k =
        masksAt (handleApplyMasksToAll files idx) k) := by
  have hmap : handleApplyMasksToAll files idx =
      files.map fun f =>
        if f.ftype = FileType.image then { f with masks := masksAt files idx } else f := by
    unfold handleApplyMasksToAll
    rw [if_neg hne]
  constructor
  · intro j f' hf' himg
    rw [hmap] at hf'
    rw [List.get?_eq_getElem?, List.getElem?_map] at hf'
    obtain ⟨f0, hf0, hfn⟩ := Option.map_eq_some'.mp hf'
    subst hfn
    by_cases hft : f0.ftype = FileType.image
    · simp [hft]
    · rw [if_neg hft] at himg ⊢
      exact absurd himg hft
  · intro j k g hjk
    exact handleMaskChange_other _ j k g hjk

/-- Witness for C6 on a concrete three-file project. -/
theorem C6_copy_to_all_witness :
    (⟨"f1", "b.png", 1, FileType.image,
        [⟨"m1", 0, 0, 1, 1, MaskOrigin.manual, none⟩]⟩ : ProjectFile ℕ).masks =
      masksAt
        [⟨"f0", "a.png", 0, FileType.image, [⟨"m1", 0, 0, 1, 1, MaskOrigin.manual, none⟩]⟩,
         ⟨"f1", "b.png", 1, FileType.image, []⟩,
         ⟨"f2", "c.glb", 2, FileType.threeD, []⟩] 0 ∧
    masksAt
      (handleMaskChange
        (handleApplyMasksToAll
          [⟨"f0", "a.png", 0, FileType.image, [⟨"m1", 0, 0, 1, 1, MaskOrigin.manual, none⟩]⟩,
           ⟨"f1", "b.png", 1, FileType.image, []⟩,
           ⟨"f2", "c.glb", 2, FileType.threeD, []⟩] 0) 0 (fun _ => [])) 1 =
      masksAt
        (handleApplyMasksToAll
          [⟨"f0", "a.png", 0, FileType.image, [⟨"m1", 0, 0, 1, 1, MaskOrigin.manual, none⟩]⟩,
           ⟨"f1", "b.png", 1, FileType.image, []⟩,
           ⟨"f2", "c.glb", 2, FileType.threeD, []⟩] 0) 1 := by
  have h := C6_copy_to_all
    [⟨"f0", "a.png", 0, FileType.image, [⟨"m1", 0, 0, 1, 1, MaskOrigin.manual, none⟩]⟩,
     ⟨"f1", "b.png", 1, FileType.image, []⟩,
     ⟨"f2", "c.glb", 2, FileType.threeD, []⟩] 0
    (by intro f hf; simp [List.get?] at hf; rw [← hf])
    (by simp [masksAt, List.get?])
  constructor
  · exact h.1 1 ⟨"f1", "b.png", 1, FileType.image,
      [⟨"m1", 0, 0, 1, 1, MaskOrigin.manual, none⟩]⟩
      (by simp [handleApplyMasksToAll, masksAt, List.get?]) rfl
  · exact h.2 0 1 (fun _ => []) (by decide)

theorem commitDrag_unit_square (ts : ℕ) :
    commitDrag ⟨0, 0, 1, 1⟩ ts =
      some ⟨Nat.repr ts, 0, 0, 1, 1, MaskOrigin.manual, none⟩ := by
  rw [commitDrag_eq, if_pos ⟨by simp [abs]; norm_num, by simp [abs]; norm_num⟩]
  norm_num [min_def, abs]

/-- C7 counterexample: two completed manual drags whose Date.now()
timestamps coincide (same millisecond) commit two rectangles with the
same identifier, so the collection's ids are not pairwise distinct. -/
theorem C7_counterexample :
    ¬ ((applyMaskOps []
        [MaskOp.drag 0 0 1 1 100, MaskOp.drag 0 0 1 1 100]).map MaskRect.id).Nodup := by
  have hstep : applyMaskOps [] [MaskOp.drag 0 0 1 1 100, MaskOp.drag 0 0 1 1 100] =
      [⟨Nat.repr 100, 0, 0, 1, 1, MaskOrigin.manual, none⟩,
       ⟨Nat.repr 100, 0, 0, 1, 1, MaskOrigin.manual, none⟩] := by
    simp [applyMaskOps, applyMaskOp, commitDrag_unit_square]
  rw [hstep]
  simp

theorem opFresh_preserves (cur : List MaskRect) (op : MaskOp)
    (h0 : (cur.map MaskRect.id).Nodup) (hf : opFresh cur op = true) :
    ((applyMaskOp cur op).map MaskRect.id).Nodup := by
  cases op with
  | drag x y w h ts =>
      unfold opFresh opGenIds at hf
      rw [Bool.and_eq_true] at hf
      have hnotin : Nat.repr ts ∉ cur.map MaskRect.id := by
        simpa [List.all_eq_true] using hf.2
      show ((cur ++ (commitDrag ⟨x, y, w, h⟩ ts).toList).map MaskRect.id).Nodup
      cases hc : commitDrag ⟨x, y, w, h⟩ ts with
      | none => simpa using h0
      | some m =>
          have hid : m.id = Nat.repr ts := by
            rw [commitDrag_eq] at hc
            by_cases hT : 5 / 1000 < |(⟨x, y, w, h⟩ : CurrentRect).w| ∧
                5 / 1000 < |(⟨x, y, w, h⟩ : CurrentRect).h|
            · rw [if_pos hT] at hc
              rw [← Option.some.inj hc]
            · rw [if_neg hT] at hc
              exact absurd hc (by simp)
          rw [show (some m).toList = [m] from rfl, List.map_append, List.nodup_append]
          refine ⟨h0, List.nodup_singleton _, ?_⟩
          intro a ha hb
          simp only [List.map_cons, List.map_nil, List.mem_singleton] at hb
          rw [hb, hid] at ha
          exact hnotin ha
  | detect items =>
      unfold opFresh opGenIds at hf
      rw [Bool.and_eq_true] at hf
      have hnodup : (items.map fun it => "ai-" ++ Nat.repr it.2.1 ++ "-" ++ it.2.2).Nodup :=
        of_decide_eq_true hf.1
      have hdisj : ∀ i ∈ items.map fun it => "ai-" ++ Nat.repr it.2.1 ++ "-" ++ it.2.2,
          i ∉ cur.map MaskRect.id := by
        simpa [List.all_eq_true] using hf.2
      show ((cur ++ items.map fun it =>
          detectionToMask it.1 it.2.1 it.2.2).map MaskRect.id).Nodup
      rw [List.map_append, List.nodup_append]
      have hmm : ((items.map fun it => detectionToMask it.1 it.2.1 it.2.2).map MaskRect.id) =
          items.map fun it => "ai-" ++ Nat.repr it.2.1 ++ "-" ++ it.2.2 := by
        rw [List.map_map]
        rfl
      rw [hmm]
      exact ⟨h0, hnodup, fun a ha hb => (hdisj a hb) ha⟩
  | copyAll src =>
      unfold opFresh opGenIds at hf
      rw [Bool.and_eq_true] at hf
      exact of_decide_eq_true hf.1

/-- C7 amended: ids in a subject's collection remain pairwise distinct
under every sequence of mask-creating operations, provided each
operation's freshly generated identifiers are pairwise distinct and
absent from the current collection (and a copied collection is itself
duplicate-free); without that proviso two manual commits in the same
millisecond collide. -/
theorem C7_amended_id_uniqueness (cur : List MaskRect) (ops : List MaskOp)
    (h0 : (cur.map MaskRect.id).Nodup) (hf : freshTrace cur ops = true) :
    ((applyMaskOps cur ops).map MaskRect.id).Nodup := by
  induction ops generalizing cur with
  | nil => simpa [applyMaskOps] using h0
  | cons op rest ih =>
      simp only [freshTrace, Bool.and_eq_true] at hf
      have hstep : applyMaskOps cur (op :: rest) = applyMaskOps (applyMaskOp cur op) rest :=
        rfl
      rw [hstep]
      exact ih _ (opFresh_preserves cur op h0 hf.1) hf.2

/-- Witness for C7 amended on a concrete fresh trace. -/
theorem C7_amended_id_uniqueness_witness :
    freshTrace []
      [MaskOp.copyAll [⟨"a", 0, 0, 1, 1, MaskOrigin.manual, none⟩,
                       ⟨"b", 0, 0, 1, 1, MaskOrigin.manual, none⟩]] = true ∧
    ((applyMaskOps []
      [MaskOp.copyAll [⟨"a", 0, 0, 1, 1, MaskOrigin.manual, none⟩,
                       ⟨"b", 0, 0, 1, 1, MaskOrigin.manual, none⟩]]).map MaskRect.id).Nodup := by
  constructor
  · decide
  · exact C7_amended_id_uniqueness _ _ (by simp) (by decide)

/-- C8 counterexample: a pointer-down arriving while a drag is in
progress (isDown already true) is not ignored — in draw mode it resets
the in-progress rectangle and overwrites the recorded anchor, and in
pan mode it overwrites the recorded pan reference. -/
theorem C8_counterexample :
    (⟨true, 3, 3, 0, 0, 7, 9, some ⟨1/10, 1/10, 1/5, 1/5⟩, []⟩ : EditorState).isDown
      = true ∧
    (handleMouseDown ⟨true, 3, 3, 0, 0, 7, 9, some ⟨1/10, 1/10, 1/5, 1/5⟩, []⟩
      ToolMode.draw 50 60 0 0 100 100 true).currentRect ≠
      some ⟨1/10, 1/10, 1/5, 1/5⟩ ∧
    (handleMouseDown ⟨true, 3, 3, 0, 0, 7, 9, some ⟨1/10, 1/10, 1/5, 1/5⟩, []⟩
      ToolMode.draw 50 60 0 0 100 100 true).startX ≠ 3 ∧
    (handleMouseDown ⟨true, 3, 3, 0, 0, 7, 9, some ⟨1/10, 1/10, 1/5, 1/5⟩, []⟩
      ToolMode.pan 50 60 0 0 100 100 true).scrollLeft ≠ 0 := by
  exact ⟨rfl, by simp [handleMouseDown, getNormalizedPos],
    by simp [handleMouseDown, getNormalizedPos],
    by simp [handleMouseDown, getNormalizedPos]⟩

/-- C8 amended: a pointer-down that arrives while a drag is in progress
is processed as a fresh gesture start rather than ignored: it records
the new pointer position as the drag anchor, and in draw mode replaces
the in-progress rectangle with a zero-extent rectangle at the new
normalized position, while in pan mode re-records the pan reference
from the container's current scroll offsets. -/
theorem C8_amended_mousedown_restarts (s : EditorState) (mode : ToolMode)
    (cX cY rL rT rW rH : ℚ) (_hdown : s.isDown = true) :
    (handleMouseDown s mode cX cY rL rT rW rH true).isDown = true ∧
    (handleMouseDown s mode cX cY rL rT rW rH true).startX = cX ∧
    (handleMouseDown s mode cX cY rL rT rW rH true).startY = cY ∧
    (mode = ToolMode.draw →
      (handleMouseDown s mode cX cY rL rT rW rH true).currentRect =
        some ⟨(cX - rL) / rW, (cY - rT) / rH, 0, 0⟩) ∧
    (mode = ToolMode.pan →
      (handleMouseDown s mode cX cY rL rT rW rH true).scrollLeft =
          s.containerScrollLeft ∧
      (handleMouseDown s mode cX cY rL rT rW rH true).scrollTop =
          s.containerScrollTop) := by
  cases mode <;> simp [handleMouseDown, getNormalizedPos]

/-- Witness for C8 amended: a second pointer-down in draw mode seeds a
fresh zero-extent rectangle at the new position. -/
theorem C8_amended_mousedown_restarts_witness :
    (handleMouseDown ⟨true, 3, 3, 0, 0, 7, 9, some ⟨1/10, 1/10, 1/5, 1/5⟩, []⟩
      ToolMode.draw 50 60 0 0 100 100 true).currentRect =
      some ⟨(50 - 0) / 100, (60 - 0) / 100, 0, 0⟩ :=
  (C8_amended_mousedown_restarts
    ⟨true, 3, 3, 0, 0, 7, 9, some ⟨1/10, 1/10, 1/5, 1/5⟩, []⟩
    ToolMode.draw 50 60 0 0 100 100 rfl).2.2.2.1 rfl

/-- C9: the claim asserts pairwise-distinct archive entry names across
pages, but the extension-normalizing regex strips everything from the
last dot, including the per-page suffix that follows the original
extension: two distinct rasterized PDF pages collide on the same
archive entry name. -/
theorem C9_filename_collision :
    ("doc.pdf [P1]" : String) ≠ "doc.pdf [P2]" ∧
    exportFileName (⟨"p1", "doc.pdf [P1]", 0, FileType.image, []⟩ : ProjectFile ℕ) =
      "doc.png" ∧
    exportFileName (⟨"p2", "doc.pdf [P2]", 0, FileType.image, []⟩ : ProjectFile ℕ) =
      "doc.png" := by
  refine ⟨by decide, by decide, by decide⟩

/-- C10: a project holding exactly one file that is an image takes the
single-image export path on batch export — the export trigger fires the
CanvasEditor full-resolution composite (one encoded png through the
export sink) — and assembles no archive and no requirements manifest
even when the project description is non-empty. -/
theorem C10_single_image_direct_export {β : Type} (f : ProjectFile β) (desc : String)
    (render : ProjectFile β → Option β) (himg : f.ftype = FileType.image) :
    handleBatchExport [f] desc render = ExportOutcome.singleImage ∧
    ∀ (entries : List (String × β)) (manifest : Option String),
      handleBatchExport [f] desc render ≠ ExportOutcome.archive entries manifest := by
  have h1 : handleBatchExport [f] desc render = ExportOutcome.singleImage := by
    simp [handleBatchExport, himg]
  refine ⟨h1, ?_⟩
  intro entries manifest
  rw [h1]
  simp

/-- Witness for C10 with a non-empty project description. -/
theorem C10_single_image_direct_export_witness :
    handleBatchExport [⟨"i", "a.png", (5 : ℕ), FileType.image, []⟩] "requirements text"
      (fun _ => Option.none) = ExportOutcome.singleImage :=
  (C10_single_image_direct_export ⟨"i", "a.png", (5 : ℕ), FileType.image, []⟩
    "requirements text" (fun _ => Option.none) rfl).1
